import Mathlib

/-!
Shallow embedding of the Specification Extraction & Validation Engine
(`src/agents/SpecificationParser.py`, `src/utils/validators.py`,
`src/models/Component.py`, `src/models/Project.py`).

Text is modelled as `String` / `List Char`.  The Python `re` patterns used by
the engine are embedded as hand-written deterministic matchers; for every
pattern of the source's pattern tables the matcher reproduces Python's
leftmost-first search semantics (the patterns use only disjoint character
classes, so greedy/lazy backtracking collapses to the deterministic scans
implemented here; the one genuine alternation/lookahead interplay — voltage
suffixes and unit alternatives — is modelled with the exact alternative
order of the source pattern).

Diagnostic message strings produced by the validators are interpolated
f-strings in the source; they are modelled as tagged values (inductive
constructors) carrying the interpolated data, which preserves the identity
and multiplicity of every diagnostic entry.
-/

namespace Docget

/-- Word character of Python `\w` (ASCII view: letters, digits, underscore). -/
def isWordChar (c : Char) : Bool := c.isAlphanum || c == '_'

/-- Whitespace of Python `\s` (space, tab, CR, LF). -/
def isSpaceChar (c : Char) : Bool := c.isWhitespace

/-- Lowercase a character list, as Python `str.lower` on ASCII text. -/
def lowerList (cs : List Char) : List Char := cs.map Char.toLower

/-- Lowercase a string. -/
def toLowerS (s : String) : String := String.mk (lowerList s.toList)

/-- Maximal digit run at the head of the list, with the remainder. -/
def takeDigits : List Char → List Char × List Char
  | [] => ([], [])
  | c :: rest =>
    if c.isDigit then
      let p := takeDigits rest
      (c :: p.1, p.2)
    else ([], c :: rest)

/-- Maximal whitespace run at the head of the list, with the remainder. -/
def takeSpaces : List Char → List Char × List Char
  | [] => ([], [])
  | c :: rest =>
    if isSpaceChar c then
      let p := takeSpaces rest
      (c :: p.1, p.2)
    else ([], c :: rest)

/-- Match a literal character sequence at the head of the input, optionally
case-insensitively; returns the consumed characters (original case) and the
remainder. -/
def litAt (ci : Bool) : List Char → List Char → Option (List Char × List Char)
  | [], cs => some ([], cs)
  | _ :: _, [] => none
  | p :: ps, c :: cs =>
    if (if ci then c.toLower == p.toLower else c == p) then
      (litAt ci ps cs).map (fun q => (c :: q.1, q.2))
    else none

/-- Python strip: drop whitespace from both ends. -/
def trimChars (cs : List Char) : List Char :=
  ((cs.dropWhile isSpaceChar).reverse.dropWhile isSpaceChar).reverse

/-- Python strip on strings. -/
def strip (s : String) : String := String.mk (trimChars s.toList)

/-- Does the remaining input start with a word character (Python `(?=\w)`)? -/
def wordStart : List Char → Bool
  | [] => false
  | c :: _ => isWordChar c

/-- Match Python `-?\d+\.?\d*` (with `-?` and `\.?\d*` enabled by the flags)
at the head of the input. -/
def matchNum (neg dot : Bool) (cs : List Char) : Option (List Char × List Char) :=
  let start : List Char × List Char :=
    match neg, cs with
    | true, '-' :: rest => (['-'], rest)
    | _, _ => ([], cs)
  let d := takeDigits start.2
  if d.1.isEmpty then none
  else if dot then
    match d.2 with
    | '.' :: r =>
      let d2 := takeDigits r
      some (start.1 ++ d.1 ++ '.' :: d2.1, d2.2)
    | _ => some (start.1 ++ d.1, d.2)
  else some (start.1 ++ d.1, d.2)

/-- Match one of the given unit alternatives (in order, case-insensitively),
optionally guarded by a trailing `(?!\w)` lookahead, mirroring Python
alternation order: a later alternative is tried when an earlier one fails to
match or fails the lookahead. -/
def matchUnitAlts (look : Bool) : List (List Char) → List Char → Option (List Char × List Char)
  | [], _ => none
  | u :: rest, cs =>
    match litAt true u cs with
    | some q => if look && wordStart q.2 then matchUnitAlts look rest cs else some q
    | none => matchUnitAlts look rest cs

/-- Match `number \s* unit-alternative` at the head of the input. -/
def matchNumUnit (neg dot look : Bool) (alts : List (List Char)) (cs : List Char) :
    Option (List Char × List Char) :=
  match matchNum neg dot cs with
  | none => none
  | some n =>
    let sp := takeSpaces n.2
    match matchUnitAlts look alts sp.2 with
    | none => none
    | some u => some (n.1 ++ sp.1 ++ u.1, u.2)

/-- Empty-suffix case of the voltage pattern `(?:DC|AC)?(?!\w)`. -/
def voltSuffixNone (r : List Char) : Option (List Char × List Char) :=
  if wordStart r then none else some ([], r)

/-- AC-or-empty case of the voltage suffix. -/
def voltSuffixAC (ci : Bool) (r : List Char) : Option (List Char × List Char) :=
  match litAt ci ['A', 'C'] r with
  | some q => if wordStart q.2 then voltSuffixNone r else some q
  | none => voltSuffixNone r

/-- Voltage suffix `(?:DC|AC)?(?!\w)` with Python's alternative order. -/
def voltSuffix (ci : Bool) (r : List Char) : Option (List Char × List Char) :=
  match litAt ci ['D', 'C'] r with
  | some q => if wordStart q.2 then voltSuffixAC ci r else some q
  | none => voltSuffixAC ci r

/-- Match the source's voltage pattern `(\d+\.?\d*)\s*V(?:DC|AC)?(?!\w)` at
the head of the input; `ci` selects whether the `re.IGNORECASE` flag is in
effect (the contextual-voltage re-search runs the same pattern without it). -/
def matchVoltageAt (ci : Bool) (cs : List Char) : Option (List Char × List Char) :=
  match matchNum false true cs with
  | none => none
  | some n =>
    let sp := takeSpaces n.2
    match litAt ci ['V'] sp.2 with
    | none => none
    | some v =>
      match voltSuffix ci v.2 with
      | none => none
      | some suf => some (n.1 ++ sp.1 ++ v.1 ++ suf.1, suf.2)

/-- Match the resolution pattern `(\d+)\s*[xX×]\s*(\d+)` at the head. -/
def matchResolutionAt (cs : List Char) : Option (List Char × List Char) :=
  match matchNum false false cs with
  | none => none
  | some n1 =>
    let s1 := takeSpaces n1.2
    match s1.2 with
    | [] => none
    | c :: r3 =>
      if c.toLower == 'x' || c == '×' then
        let s2 := takeSpaces r3
        match matchNum false false s2.2 with
        | none => none
        | some n2 => some (n1.1 ++ s1.1 ++ c :: (s2.1 ++ n2.1), n2.2)
      else none

/-- Match the temperature pattern `(-?\d+\.?\d*)\s*°?C` at the head. -/
def matchTemperatureAt (cs : List Char) : Option (List Char × List Char) :=
  match matchNum true true cs with
  | none => none
  | some n =>
    let sp := takeSpaces n.2
    match sp.2 with
    | '°' :: r3 =>
      match litAt true ['C'] r3 with
      | some q => some (n.1 ++ sp.1 ++ '°' :: q.1, q.2)
      | none => none
    | r2 =>
      match litAt true ['C'] r2 with
      | some q => some (n.1 ++ sp.1 ++ q.1, q.2)
      | none => none

/-- Match the channels pattern `(\d+)\s*[-\s]?(?:ch|channel)` at the head;
since `ch` is tried before `channel` and is one of its own initial segments,
the alternation always resolves to `ch`. -/
def matchChannelsAt (cs : List Char) : Option (List Char × List Char) :=
  match matchNum false false cs with
  | none => none
  | some n =>
    let sp := takeSpaces n.2
    let direct : Option (List Char × List Char) :=
      match litAt true ['c', 'h'] sp.2 with
      | some q => some (n.1 ++ sp.1 ++ q.1, q.2)
      | none => none
    match sp.2 with
    | [] => direct
    | c :: r3 =>
      if c == '-' || isSpaceChar c then
        match litAt true ['c', 'h'] r3 with
        | some q => some (n.1 ++ sp.1 ++ c :: q.1, q.2)
        | none => direct
      else direct

/-- Leftmost-first search: try the matcher at every position from the left
and return the first full matched substring (`match.group(0)`). -/
def searchAux (m : List Char → Option (List Char × List Char)) :
    List Char → Option (List Char)
  | [] => none
  | c :: rest =>
    match m (c :: rest) with
    | some q => some q.1
    | none => searchAux m rest

/-- The head-anchored matcher for each entry of the source's `PATTERNS`
table, keyed by pattern name exactly as registered there. -/
def patternMatcher (name : String) : Option (List Char → Option (List Char × List Char)) :=
  if name == "voltage" then some (matchVoltageAt true)
  else if name == "current" then some (matchNumUnit false true true [['m', 'A'], ['A']])
  else if name == "power" then some (matchNumUnit false true true [['m', 'W'], ['W']])
  else if name == "frequency" then
    some (matchNumUnit false true false [['M', 'H', 'z'], ['G', 'H', 'z'], ['H', 'z'], ['K', 'H', 'z']])
  else if name == "capacity" then some (matchNumUnit false true false [['m', 'A', 'h']])
  else if name == "resolution" then some matchResolutionAt
  else if name == "megapixel" then some (matchNumUnit false true false [['M', 'P']])
  else if name == "fps" then some (matchNumUnit false false false [['f', 'p', 's']])
  else if name == "kv_rating" then some (matchNumUnit false false false [['K', 'V']])
  else if name == "clock_speed" then
    some (matchNumUnit false true false [['M', 'H', 'z'], ['G', 'H', 'z']])
  else if name == "memory" then
    some (matchNumUnit false true false [['K', 'B'], ['M', 'B'], ['G', 'B']])
  else if name == "temperature" then some matchTemperatureAt
  else if name == "weight" then
    some (matchNumUnit false true false [['g'], ['k', 'g'], ['o', 'z'], ['l', 'b']])
  else if name == "rpm" then some (matchNumUnit false false false [['R', 'P', 'M']])
  else if name == "channels" then some matchChannelsAt
  else none

/-- Registration order of the source's `PATTERNS` table. -/
def PATTERN_NAMES : List String :=
  ["voltage", "current", "power", "frequency", "capacity", "resolution",
   "megapixel", "fps", "kv_rating", "clock_speed", "memory", "temperature",
   "weight", "rpm", "channels"]

/-- `SpecificationParser._extract_pattern`: leftmost case-insensitive search
of a named pattern, returning `match.group(0).strip()` or `None`; an unknown
pattern name yields `None`. -/
def extractPattern (name : String) (text : String) : Option String :=
  match patternMatcher name with
  | none => none
  | some m =>
    match searchAux m text.toList with
    | some g0 => some (strip (String.mk g0))
    | none => none

/-- Python-dict assignment `d[k] = v` on an association list: replaces the
value in place when the key is present, appends otherwise. -/
def dictInsert : List (String × String) → String → String → List (String × String)
  | [], k, v => [(k, v)]
  | (k', v') :: rest, k, v =>
    if k' == k then (k, v) :: rest else (k', v') :: dictInsert rest k v

/-- Python `d.update(ps)`: insert every pair of `ps` into `d` in order. -/
def dictUpdate (d ps : List (String × String)) : List (String × String) :=
  ps.foldl (fun acc kv => dictInsert acc kv.1 kv.2) d

/-- `SpecificationParser.extract_all_specs`: run every registered pattern
over the text and record each successful extraction under its pattern name,
in registration order. -/
def extract_all_specs (text : String) : List (String × String) :=
  PATTERN_NAMES.foldl
    (fun specs nm =>
      match extractPattern nm text with
      | some v => dictInsert specs nm v
      | none => specs)
    []

/-- Gap character class `[\s\w:]` of the contextual-voltage pattern. -/
def isGapChar (c : Char) : Bool := isSpaceChar c || isWordChar c || c == ':'

/-- Lazy gap `[\s\w:]*?` followed by the voltage pattern (case-insensitive,
as the whole contextual pattern is compiled with `re.IGNORECASE`): shortest
gap first, every gap character drawn from the class.  Returns the gap plus
voltage-match characters. -/
def lazyGapVoltage : List Char → Option (List Char)
  | [] => none
  | c :: rest =>
    match matchVoltageAt true (c :: rest) with
    | some q => some q.1
    | none =>
      if isGapChar c then (lazyGapVoltage rest).map (fun g => c :: g) else none

/-- Try the contextual pattern `keyword[\s\w:]*?(voltage)` at the head of
the input, returning `match.group(0)`. -/
def contextMatchAt (kw : List Char) (cs : List Char) : Option (List Char) :=
  match litAt true kw cs with
  | none => none
  | some q => (lazyGapVoltage q.2).map (fun g => q.1 ++ g)

/-- Leftmost search of the contextual pattern over the whole text. -/
def contextScan (kw : List Char) : List Char → Option (List Char)
  | [] => none
  | c :: rest =>
    match contextMatchAt kw (c :: rest) with
    | some g0 => some g0
    | none => contextScan kw rest

/-- `SpecificationParser._extract_contextual_voltage`: for each context
keyword in order, search `keyword[\s\w:]*?(voltage)` case-insensitively;
on a hit, re-search the voltage pattern case-SENSITIVELY inside the matched
substring (the inner `re.search` passes no flags) and return that
`group(0).strip()`; if the inner search misses, move on to the next
keyword. -/
def extractContextualVoltage (text : String) : List String → Option String
  | [] => none
  | kw :: rest =>
    match contextScan (toLowerS kw).toList text.toList with
    | some g0 =>
      match searchAux (matchVoltageAt false) g0 with
      | some v => some (strip (String.mk v))
      | none => extractContextualVoltage text rest
    | none => extractContextualVoltage text rest

/-- `PowerSpec` record of `src/models/Component.py`; absent optional fields
are `none`. -/
structure PowerSpec where
  voltage_input : Option String := none
  voltage_output : Option String := none
  current_rating : Option String := none
  power_consumption : Option String := none
  capacity : Option String := none
deriving DecidableEq

/-- `InterfaceSpec` record: seven non-negative interface counts, default 0
(the data model's invariant keeps them non-negative, so they are `Nat`). -/
structure InterfaceSpec where
  uart_count : Nat := 0
  i2c_count : Nat := 0
  spi_count : Nat := 0
  can_count : Nat := 0
  usb_count : Nat := 0
  gpio_count : Nat := 0
  pwm_count : Nat := 0
deriving DecidableEq

/-- `Component` record; `specific_specs` is the `Dict[str, str]` mapping,
modelled as an association list in insertion order; `confidence` (a float
in `[0,1]`) is modelled as a rational. -/
structure Component where
  name : String
  component_type : String
  manufacturer : Option String := none
  part_number : Option String := none
  power : PowerSpec := {}
  interfaces : InterfaceSpec := {}
  specific_specs : List (String × String) := []
  source_document : String
  page_number : Option Int := none
  confidence : Option Rat := none
deriving DecidableEq

/-- `Project` record; `total_power_budget` is the `Dict[str, float]` of
aggregate keys, modelled as an association list of rationals. -/
structure Project where
  name : String
  components : List Component := []
  total_power_budget : List (String × Rat) := []
  compatibility_issues : List String := []
  missing_components : List String := []
  warnings : List String := []
  recommendations : List String := []
deriving DecidableEq

/-- `SpecificationParser.parse_power_specs`: contextual voltage extraction
for the input and output directions, with the unscoped first voltage match
assigned to `voltage_input` when neither direction matched contextually. -/
def parse_power_specs (text : String) : PowerSpec :=
  let voltage_input := extractContextualVoltage text ["input", "supply", "vin"]
  let voltage_output := extractContextualVoltage text ["output", "vout"]
  let voltage_input :=
    if voltage_input.isNone && voltage_output.isNone then
      extractPattern "voltage" text
    else voltage_input
  { voltage_input := voltage_input
    voltage_output := voltage_output
    current_rating := extractPattern "current" text
    power_consumption := extractPattern "power" text
    capacity := extractPattern "capacity" text }

/-- Does `needle` start the list `hay`? -/
def startsWithSeq : List Char → List Char → Bool
  | [], _ => true
  | _ :: _, [] => false
  | a :: as, b :: bs => a == b && startsWithSeq as bs

/-- Python `needle in hay` substring membership on character lists. -/
def containsSeq (needle : List Char) : List Char → Bool
  | [] => needle.isEmpty
  | c :: rest => startsWithSeq needle (c :: rest) || containsSeq needle rest

/-- Substring membership on strings. -/
def substrOf (needle hay : String) : Bool := containsSeq needle.toList hay.toList

/-- The source's `COMPONENT_TYPE_KEYWORDS` table, in registration order. -/
def COMPONENT_TYPE_KEYWORDS : List (String × List String) :=
  [("motor", ["motor", "brushless", "servo", "actuator", "bldc"]),
   ("sensor", ["sensor", "imu", "gps", "accelerometer", "gyro", "gyroscope",
               "barometer", "magnetometer", "compass", "lidar", "ultrasonic"]),
   ("camera", ["camera", "lens", "megapixel", "fps", "resolution", "cmos", "ccd"]),
   ("processor", ["microcontroller", "mcu", "processor", "cpu", "arm", "esp32",
                  "stm32", "arduino", "cortex", "flight controller"]),
   ("battery", ["battery", "lipo", "li-po", "li-ion", "lithium", "mah", "cell"]),
   ("esc", ["esc", "speed controller", "electronic speed"]),
   ("radio", ["receiver", "transmitter", "radio", "telemetry", "rc", "remote control"]),
   ("power", ["regulator", "voltage regulator", "buck", "boost", "ldo", "pdb",
              "power distribution"])]

/-- Keyword-hit count of one category over the lowercased text. -/
def scoreOf (kws : List String) (lowText : List Char) : Nat :=
  (kws.filter (fun kw => containsSeq kw.toList lowText)).length

/-- Score of every category, in table registration order. -/
def typeScores (text : String) : List (String × Nat) :=
  COMPONENT_TYPE_KEYWORDS.map (fun e => (e.1, scoreOf e.2 (lowerList text.toList)))

/-- Python `max(items, key=value)`: fold that replaces the best element only
on a strictly greater value, so the first maximum wins. -/
def pickMax : (String × Nat) → List (String × Nat) → String × Nat
  | best, [] => best
  | best, x :: xs => pickMax (if best.2 < x.2 then x else best) xs

/-- `SpecificationParser.identify_component_type`: keep the categories with
a nonzero score (in registration order) and return the first one attaining
the maximal score, or `None` when every category scores zero. -/
def identify_component_type (text : String) : Option String :=
  match (typeScores text).filter (fun p => decide (0 < p.2)) with
  | [] => none
  | b :: rest => some (pickMax b rest).1

/-- Header keywords marking a specification-name column. -/
def spec_indicators : List String := ["specification", "parameter", "description", "feature"]

/-- Header keywords marking a value column. -/
def value_indicators : List String := ["value", "rating", "typical", "min", "max"]

/-- Header scan of `parse_table_specs`: one pass over the headers with
index; a header containing a spec indicator sets the spec column, otherwise
one containing a value indicator sets the value column (`elif`), later hits
overwriting earlier ones. -/
def findCols (headers : List String) : Option Nat × Option Nat :=
  headers.enum.foldl
    (fun acc ih =>
      if spec_indicators.any (fun ind => substrOf ind ih.2) then (some ih.1, acc.2)
      else if value_indicators.any (fun ind => substrOf ind ih.2) then (acc.1, some ih.1)
      else acc)
    (none, none)

/-- Space-joined flattening `' '.join(' '.join(row) for row in table)`. -/
def flattenTable (table : List (List String)) : String :=
  String.intercalate " " (table.map (String.intercalate " "))

/-- Row-pair extraction of `parse_table_specs` once a spec column `i` and a
value column `j` have both been identified. -/
def rowSpecsOf (i j : Nat) (rows : List (List String)) : List (String × String) :=
  rows.foldl
    (fun specs row =>
      if max i j < row.length then
        let nm := strip (row.getD i "")
        let vl := strip (row.getD j "")
        if nm != "" && vl != "" then dictInsert specs nm vl else specs
      else specs)
    []

/-- `SpecificationParser.parse_table_specs`: empty result for grids shorter
than two rows; otherwise row-derived pairs from an identified column pair
(if any), then `specs.update(...)` with the aggregate pattern extraction
over the flattened table text. -/
def parse_table_specs (table : List (List String)) : List (String × String) :=
  if table.length < 2 then []
  else
    let headers := (table.headD []).map (fun cell => strip (toLowerS cell))
    let cols := findCols headers
    let rowSpecs :=
      match cols.1, cols.2 with
      | some i, some j => rowSpecsOf i j table.tail
      | _, _ => []
    dictUpdate rowSpecs (extract_all_specs (flattenTable table))

/-- Python end-of-string for `re.match(..., '$')`: the true end, or a single
trailing newline. -/
def atEndDollar : List Char → Bool
  | [] => true
  | [c] => c == '\n'
  | _ => false

/-- Try each unit alternative in order against the remaining input; the
alternative must be followed by the `$` anchor. -/
def altsAtEnd : List (List Char) → List Char → Bool
  | [], _ => false
  | u :: rest, r =>
    (match litAt true u r with
     | some q => atEndDollar q.2
     | none => false)
    || altsAtEnd rest r

/-- Anchored format check `^\d+\.?\d*(alt1|alt2|...)$` with `re.IGNORECASE`,
as used by `_validate_power_spec`; the voltage pattern's `V(DC|AC)?` is the
ordered alternation `VDC|VAC|V`. -/
def anchoredNumUnit (alts : List (List Char)) (s : String) : Bool :=
  match matchNum false true s.toList with
  | none => false
  | some n => altsAtEnd alts n.2

/-- Anchored voltage format `^\d+\.?\d*V(DC|AC)?$`. -/
def voltageFormatOk (s : String) : Bool :=
  anchoredNumUnit [['V', 'D', 'C'], ['V', 'A', 'C'], ['V']] s

/-- Anchored current format `^\d+\.?\d*(mA|A)$`. -/
def currentFormatOk (s : String) : Bool := anchoredNumUnit [['m', 'A'], ['A']] s

/-- Anchored power format `^\d+\.?\d*(mW|W)$`. -/
def powerFormatOk (s : String) : Bool := anchoredNumUnit [['m', 'W'], ['W']] s

/-- Anchored capacity format `^\d+\.?\d*mAh$`. -/
def capacityFormatOk (s : String) : Bool := anchoredNumUnit [['m', 'A', 'h']] s

/-- Validation diagnostics of `ComponentValidator`, with the interpolated
field text carried by the format-error constructors. -/
inductive ComponentError where
  | nameRequired
  | typeRequired
  | sourceRequired
  | invalidVoltageInput (s : String)
  | invalidVoltageOutput (s : String)
  | invalidCurrentRating (s : String)
  | invalidPowerConsumption (s : String)
  | invalidCapacity (s : String)
deriving DecidableEq

/-- Python truthiness of an optional string: present and non-empty. -/
def truthyOpt : Option String → Bool
  | some s => s != ""
  | none => false

/-- One `if power_spec.field:` format check of `_validate_power_spec`. -/
def powerFieldCheck (field : Option String) (ok : String → Bool)
    (err : String → ComponentError) : List ComponentError :=
  match field with
  | some s => if s != "" && !ok s then [err s] else []
  | none => []

/-- `ComponentValidator._validate_power_spec`: anchored format checks over
each populated `PowerSpec` field, in field order. -/
def validatePowerSpec (p : PowerSpec) : List ComponentError :=
  powerFieldCheck p.voltage_input voltageFormatOk ComponentError.invalidVoltageInput
    ++ powerFieldCheck p.voltage_output voltageFormatOk ComponentError.invalidVoltageOutput
    ++ powerFieldCheck p.current_rating currentFormatOk ComponentError.invalidCurrentRating
    ++ powerFieldCheck p.power_consumption powerFormatOk ComponentError.invalidPowerConsumption
    ++ powerFieldCheck p.capacity capacityFormatOk ComponentError.invalidCapacity

/-- `ComponentValidator.validate_component`: required-field checks (an
unknown but non-empty component type only logs a warning and adds no error)
followed by the power-spec format checks; `ok` iff the error list is
empty. -/
def validate_component (c : Component) : Bool × List ComponentError :=
  let errors :=
    (if c.name == "" then [ComponentError.nameRequired] else [])
      ++ (if c.component_type == "" then [ComponentError.typeRequired] else [])
      ++ (if c.source_document == "" then [ComponentError.sourceRequired] else [])
      ++ validatePowerSpec c.power
  (errors.isEmpty, errors)

/-- Truthiness of the six core fields checked by `check_completeness`, in
source order. -/
def coreFields (c : Component) : List Bool :=
  [c.name != "", c.component_type != "", truthyOpt c.manufacturer,
   truthyOpt c.part_number, truthyOpt c.power.voltage_input,
   truthyOpt c.power.current_rating]

/-- Interface checklist item of `check_completeness`: the source tests only
the uart, i2c, spi and usb counts. -/
def interfaceAnyFilled (c : Component) : Bool :=
  decide (0 < c.interfaces.uart_count) || decide (0 < c.interfaces.i2c_count)
    || decide (0 < c.interfaces.spi_count) || decide (0 < c.interfaces.usb_count)

/-- `ComponentValidator.check_completeness`: count of populated checklist
items over the fixed eight-item total (six core fields, the interface item,
the `specific_specs` item), returned as `filled / total`. -/
def check_completeness (c : Component) : Rat :=
  let coreFilled := (coreFields c).countP (fun b => b)
  let filled := coreFilled + (if interfaceAnyFilled c then 1 else 0)
    + (if c.specific_specs.isEmpty then 0 else 1)
  let total : Nat := (coreFields c).length + 1 + 1
  if 0 < total then (filled : Rat) / (total : Rat) else 0

/-- Project-level diagnostics of `SpecValidator`, with the interpolated data
(1-based component index, component name, folded error list, essential
description) carried by the constructors. -/
inductive ProjectWarning where
  | noComponents
  | componentIssue (idx : Nat) (name : String) (errors : List ComponentError)
  | missingEssential (description : String)
deriving DecidableEq

/-- The `essentials` table of `_check_essential_drone_components`, in
registration order. -/
def essentialsTable : List (String × String) :=
  [("processor", "Flight controller or microcontroller"),
   ("motor", "Motors for propulsion"),
   ("esc", "Electronic speed controllers"),
   ("battery", "Power source"),
   ("radio", "Remote control receiver")]

/-- `SpecValidator._check_essential_drone_components`: one warning per
essential category absent from the project's component types. -/
def checkEssentialDrone (p : Project) : List ProjectWarning :=
  essentialsTable.filterMap
    (fun e =>
      if (p.components.map (fun c => c.component_type)).contains e.1 then none
      else some (ProjectWarning.missingEssential e.2))

/-- `SpecValidator.validate_project`: the no-components warning, then one
folded warning per invalid component (tagged with its 1-based index and
name), then — when the lowercased project name contains "drone" or
"quadcopter" — the essential-component warnings; `ok` iff no warnings. -/
def validate_project (p : Project) : Bool × List ProjectWarning :=
  let w1 := if p.components.isEmpty then [ProjectWarning.noComponents] else []
  let w2 := p.components.enum.foldl
    (fun acc ic =>
      let r := validate_component ic.2
      if r.1 then acc else acc ++ [ProjectWarning.componentIssue (ic.1 + 1) ic.2.name r.2])
    []
  let w3 :=
    if substrOf "drone" (toLowerS p.name) || substrOf "quadcopter" (toLowerS p.name) then
      checkEssentialDrone p
    else []
  let warnings := w1 ++ w2 ++ w3
  (warnings.isEmpty, warnings)

/-- Digit run to a natural number. -/
def digitsToNat (cs : List Char) : Nat :=
  cs.foldl (fun a c => a * 10 + (c.toNat - '0'.toNat)) 0

/-- Value of a decimal numeral `digits[.digits]` as a rational, modelling
Python `float(...)` of a matched `(\d+\.?\d*)` group exactly. -/
def decimalToRat (cs : List Char) : Rat :=
  let ip := takeDigits cs
  match ip.2 with
  | '.' :: fr =>
    let fp := takeDigits fr
    (digitsToNat ip.1 : Rat) + (digitsToNat fp.1 : Rat) / ((10 : Rat) ^ fp.1.length)
  | _ => (digitsToNat ip.1 : Rat)

/-- Leading numeric value of a voltage text: leftmost `(\d+\.?\d*)` match,
as a rational. -/
def leadingNumber (s : String) : Option Rat :=
  (searchAux (matchNum false true) s.toList).map decimalToRat

/-- The `(name, numeric voltage)` pairs collected from every component with
a populated `voltage_input` whose text contains a number. -/
def voltagesOf (p : Project) : List (String × Rat) :=
  p.components.filterMap
    (fun c =>
      match c.power.voltage_input with
      | some s => if s != "" then (leadingNumber s).map (fun q => (c.name, q)) else none
      | none => none)

/-- Append a value to the list when it is not already present (first
occurrence kept), giving the distinct values of Python `set(...)`. -/
def insertDistinct (l : List Rat) (v : Rat) : List Rat :=
  if l.contains v then l else l ++ [v]

/-- Distinct values of a list, in first-appearance order. -/
def distinctVals (vs : List Rat) : List Rat := vs.foldl insertDistinct []

/-- Power-compatibility diagnostics, with the distinct voltage values and
the total current carried by the constructors. -/
inductive PowerIssue where
  | voltageMismatch (voltages : List Rat)
  | highCurrent (amps : Rat)
deriving DecidableEq

/-- `SpecValidator.check_power_compatibility`: a voltage-mismatch issue when
more than one voltage was collected and more than three distinct values are
present; a high-current issue when a battery-typed component exists and the
budget's total current exceeds 50. -/
def check_power_compatibility (p : Project) : List PowerIssue :=
  let voltages := voltagesOf p
  let issues1 :=
    if 1 < voltages.length then
      let uniq := distinctVals (voltages.map (fun v => v.2))
      if 3 < uniq.length then [PowerIssue.voltageMismatch uniq] else []
    else []
  let batteries := p.components.filter (fun c => c.component_type == "battery")
  let issues2 :=
    if batteries.isEmpty then []
    else
      let total := (List.lookup "total_current_a" p.total_power_budget).getD 0
      if 50 < total then [PowerIssue.highCurrent total] else []
  issues1 ++ issues2

/-- Interface-availability diagnostics, with the needed and available
counts carried by the shortfall constructors. -/
inductive InterfaceIssue where
  | noProcessor
  | insufficientUart (needed avail : Nat)
  | insufficientI2c (needed avail : Nat)
  | insufficientSpi (needed avail : Nat)
deriving DecidableEq

/-- Python `repr` of a plain string (no quotes or escapes inside). -/
def pyStrRepr (s : String) : String := "'" ++ s ++ "'"

/-- Python `str(...)` of a `Dict[str, str]`, for plain keys and values. -/
def pyDictRepr (d : List (String × String)) : String :=
  "\x7b" ++ String.intercalate ", " (d.map (fun kv => pyStrRepr kv.1 ++ ": " ++ pyStrRepr kv.2)) ++ "\x7d"

/-- The processor/controller components of a project, in insertion order. -/
def processorsOf (p : Project) : List Component :=
  p.components.filter
    (fun c => c.component_type == "processor" || c.component_type == "controller")

/-- Peripheral components considered by the interface estimate. -/
def peripheralsOf (p : Project) : List Component :=
  p.components.filter
    (fun c => c.component_type == "sensor" || c.component_type == "radio"
      || c.component_type == "camera")

/-- Number of peripherals whose `str(specific_specs).lower()` contains the
given protocol token. -/
def requiredCount (proto : String) (p : Project) : Nat :=
  ((peripheralsOf p).filter
    (fun c => substrOf proto (toLowerS (pyDictRepr c.specific_specs)))).length

/-- `SpecValidator.check_interface_availability`: with no processor or
controller, a single no-processor issue; otherwise the first such component
is the controller and one shortfall issue is emitted per protocol whose
estimated requirement exceeds the controller's count. -/
def check_interface_availability (p : Project) : List InterfaceIssue :=
  match processorsOf p with
  | [] => [InterfaceIssue.noProcessor]
  | main :: _ =>
    let requiredUart := requiredCount "uart" p
    let requiredI2c := requiredCount "i2c" p
    let requiredSpi := requiredCount "spi" p
    (if main.interfaces.uart_count < requiredUart then
      [InterfaceIssue.insufficientUart requiredUart main.interfaces.uart_count] else [])
    ++ (if main.interfaces.i2c_count < requiredI2c then
      [InterfaceIssue.insufficientI2c requiredI2c main.interfaces.i2c_count] else [])
    ++ (if main.interfaces.spi_count < requiredSpi then
      [InterfaceIssue.insufficientSpi requiredSpi main.interfaces.spi_count] else [])

/-- State-passing translation of `SpecValidator.validate_project`: the
method reads the project and builds a local warning list; it performs no
attribute assignment on the project, so the post-state is the input. -/
def validate_projectST (p : Project) : Project × (Bool × List ProjectWarning) :=
  (p, validate_project p)

/-- State-passing translation of `SpecValidator.check_power_compatibility`;
no attribute assignment on the project. -/
def check_power_compatibilityST (p : Project) : Project × List PowerIssue :=
  (p, check_power_compatibility p)

/-- State-passing translation of `SpecValidator.check_interface_availability`;
no attribute assignment on the project. -/
def check_interface_availabilityST (p : Project) : Project × List InterfaceIssue :=
  (p, check_interface_availability p)

/-! Association-list lemmas for the Python-dict model. -/

/-- Key list of an association list. -/
def keysOf (d : List (String × String)) : List String := d.map Prod.fst

theorem lookup_dictInsert_self (d : List (String × String)) (k v : String) :
    List.lookup k (dictInsert d k v) = some v := by
  induction d with
  | nil => simp [dictInsert, List.lookup]
  | cons kv rest ih =>
    obtain ⟨k', v'⟩ := kv
    by_cases h : k' = k
    · simp [dictInsert, h, List.lookup]
    · have hb : (k' == k) = false := beq_eq_false_iff_ne.mpr h
      have hb' : (k == k') = false := beq_eq_false_iff_ne.mpr (Ne.symm h)
      simp [dictInsert, hb, hb', List.lookup, ih]

theorem lookup_dictInsert_ne (d : List (String × String)) {a k : String} (v : String)
    (h : a ≠ k) : List.lookup a (dictInsert d k v) = List.lookup a d := by
  induction d with
  | nil => simp [dictInsert, List.lookup, beq_eq_false_iff_ne.mpr h]
  | cons kv rest ih =>
    obtain ⟨k', v'⟩ := kv
    by_cases hk : k' = k
    · subst hk
      simp [dictInsert, List.lookup, beq_eq_false_iff_ne.mpr h]
    · simp [dictInsert, beq_eq_false_iff_ne.mpr hk, List.lookup, ih]

theorem mem_keysOf_dictInsert {d : List (String × String)} {k v a : String} :
    a ∈ keysOf (dictInsert d k v) ↔ a ∈ keysOf d ∨ a = k := by
  induction d with
  | nil => simp [dictInsert, keysOf]
  | cons kv rest ih =>
    obtain ⟨k', v'⟩ := kv
    by_cases hk : k' = k
    · subst hk
      simp [dictInsert, keysOf]
      tauto
    · simp [dictInsert, beq_eq_false_iff_ne.mpr hk, keysOf] at ih ⊢
      tauto

theorem nodup_keysOf_dictInsert {d : List (String × String)} {k v : String}
    (h : (keysOf d).Nodup) : (keysOf (dictInsert d k v)).Nodup := by
  induction d with
  | nil => simp [dictInsert, keysOf]
  | cons kv rest ih =>
    obtain ⟨k', v'⟩ := kv
    simp only [keysOf, List.map_cons, List.nodup_cons] at h
    by_cases hk : k' = k
    · subst hk
      simpa [dictInsert, keysOf] using h
    · have hne : (k' == k) = false := beq_eq_false_iff_ne.mpr hk
      simp only [dictInsert, hne, Bool.false_eq_true, if_false, keysOf, List.map_cons,
        List.nodup_cons]
      refine ⟨?_, ih h.2⟩
      intro hmem
      rcases mem_keysOf_dictInsert.mp hmem with h1 | h1
      · exact h.1 h1
      · exact hk h1

theorem nodup_keysOf_extract_all_specs (t : String) :
    (keysOf (extract_all_specs t)).Nodup := by
  have main : ∀ (names : List String) (d : List (String × String)), (keysOf d).Nodup →
      (keysOf (names.foldl
        (fun specs nm =>
          match extractPattern nm t with
          | some v => dictInsert specs nm v
          | none => specs) d)).Nodup := by
    intro names
    induction names with
    | nil => intro d hd; simpa using hd
    | cons nm rest ih =>
      intro d hd
      simp only [List.foldl_cons]
      cases hx : extractPattern nm t with
      | none => simpa [hx] using ih d hd
      | some v => simpa [hx] using ih (dictInsert d nm v) (nodup_keysOf_dictInsert hd)
  simpa [extract_all_specs] using main PATTERN_NAMES [] (by simp [keysOf])

theorem lookup_dictUpdate_not_mem {ps : List (String × String)} {a : String}
    (d : List (String × String)) (h : a ∉ keysOf ps) :
    List.lookup a (dictUpdate d ps) = List.lookup a d := by
  induction ps generalizing d with
  | nil => rfl
  | cons kv rest ih =>
    obtain ⟨k, v⟩ := kv
    simp only [keysOf, List.map_cons, List.mem_cons, not_or] at h
    simp only [dictUpdate, List.foldl_cons]
    have := ih (dictInsert d k v) (by simpa [keysOf] using h.2)
    simp only [dictUpdate] at this
    rw [this, lookup_dictInsert_ne d v h.1]

theorem lookup_dictUpdate_of_lookup {ps : List (String × String)} {a v : String}
    (d : List (String × String)) (hnd : (keysOf ps).Nodup)
    (h : List.lookup a ps = some v) :
    List.lookup a (dictUpdate d ps) = some v := by
  induction ps generalizing d with
  | nil => simp [List.lookup] at h
  | cons kv rest ih =>
    obtain ⟨k, w⟩ := kv
    simp only [keysOf, List.map_cons, List.nodup_cons] at hnd
    simp only [dictUpdate, List.foldl_cons]
    by_cases hak : a = k
    · subst hak
      simp only [List.lookup, beq_self_eq_true, if_pos] at h
      have hwv : w = v := by simpa using h
      subst hwv
      have hnot : a ∉ keysOf rest := by simpa [keysOf] using hnd.1
      have := lookup_dictUpdate_not_mem (dictInsert d a w) hnot
      simp only [dictUpdate] at this
      rw [this, lookup_dictInsert_self]
    · have hb : (a == k) = false := beq_eq_false_iff_ne.mpr hak
      simp only [List.lookup, hb, if_neg, Bool.false_eq_true] at h
      have := ih (dictInsert d k w) hnd.2 h
      simpa [dictUpdate] using this

/-- C1 counterexample input: a one-row grid, which the table extractor
rejects before running the aggregate extraction. -/
def c1ShortTable : List (List String) := [["5V"]]

/-- C1 (counterexample): on the one-row grid `[["5V"]]` the table extractor
returns the empty mapping although the aggregate extraction over the
flattened text yields the pair `voltage -> 5V`, so the claim fails on grids
with fewer than two rows. -/
theorem parse_table_specs_short_grid_counterexample :
    parse_table_specs c1ShortTable = []
      ∧ List.lookup "voltage" (extract_all_specs (flattenTable c1ShortTable)) = some "5V"
      ∧ List.lookup "voltage" (parse_table_specs c1ShortTable) = none := by
  refine ⟨by decide, by decide, by decide⟩

/-- C1 (amended: restricted to grids with at least two rows, which are the
only grids on which the aggregate extraction runs): every key/value pair
produced by `extract_all_specs` over the space-joined flattened text of all
cells is present in the mapping returned by `parse_table_specs`; in
particular on a key collision with a row-derived pair the pattern-derived
value is the one present. -/
theorem parse_table_specs_contains_aggregate (table : List (List String)) (k v : String)
    (hlen : 2 ≤ table.length)
    (h : List.lookup k (extract_all_specs (flattenTable table)) = some v) :
    List.lookup k (parse_table_specs table) = some v := by
  have hnot : ¬ table.length < 2 := by omega
  simp only [parse_table_specs, if_neg hnot]
  exact lookup_dictUpdate_of_lookup _ (nodup_keysOf_extract_all_specs _) h

/-- Witness for C1: the two-row grid `[[Parameter, Value], [Voltage, 5V]]`
satisfies the hypotheses, and the pattern-derived pair `voltage -> 5V`
is found in the result. -/
theorem parse_table_specs_contains_aggregate_witness :
    List.lookup "voltage"
      (parse_table_specs [["Parameter", "Value"], ["Voltage", "5V"]]) = some "5V" :=
  parse_table_specs_contains_aggregate [["Parameter", "Value"], ["Voltage", "5V"]]
    "voltage" "5V" (by decide) (by decide)

/-- C9: `extract_all_specs` is deterministic — two runs on the same input
text produce identical output mappings. -/
theorem extract_all_specs_deterministic (t1 t2 : String) (h : t1 = t2) :
    extract_all_specs t1 = extract_all_specs t2 := by
  rw [h]

/-- Witness for C9 at the input `"5V"`. -/
theorem extract_all_specs_deterministic_witness :
    extract_all_specs "5V" = extract_all_specs "5V" :=
  extract_all_specs_deterministic "5V" "5V" rfl

/-- C10: the three validator entry points leave the project value entirely
unchanged — components, power budget and all four diagnostic lists are the
same before and after, and diagnostics are delivered only in the returned
lists. -/
theorem validators_leave_project_unchanged (p : Project) :
    (validate_projectST p).1 = p
      ∧ (check_power_compatibilityST p).1 = p
      ∧ (check_interface_availabilityST p).1 = p
      ∧ (validate_projectST p).1.components = p.components
      ∧ (validate_projectST p).1.total_power_budget = p.total_power_budget
      ∧ (validate_projectST p).1.compatibility_issues = p.compatibility_issues
      ∧ (validate_projectST p).1.missing_components = p.missing_components
      ∧ (validate_projectST p).1.warnings = p.warnings
      ∧ (validate_projectST p).1.recommendations = p.recommendations
      ∧ (check_power_compatibilityST p).1.components = p.components
      ∧ (check_power_compatibilityST p).1.total_power_budget = p.total_power_budget
      ∧ (check_power_compatibilityST p).1.compatibility_issues = p.compatibility_issues
      ∧ (check_power_compatibilityST p).1.missing_components = p.missing_components
      ∧ (check_power_compatibilityST p).1.warnings = p.warnings
      ∧ (check_power_compatibilityST p).1.recommendations = p.recommendations
      ∧ (check_interface_availabilityST p).1.components = p.components
      ∧ (check_interface_availabilityST p).1.total_power_budget = p.total_power_budget
      ∧ (check_interface_availabilityST p).1.compatibility_issues = p.compatibility_issues
      ∧ (check_interface_availabilityST p).1.missing_components = p.missing_components
      ∧ (check_interface_availabilityST p).1.warnings = p.warnings
      ∧ (check_interface_availabilityST p).1.recommendations = p.recommendations := by
  and_intros <;> rfl

/-! Component-validator claims. -/

/-- Format conditions of the claim for every populated power field: a
populated (present and non-empty) field passes its anchored unit pattern. -/
def powerFormatsOk (p : PowerSpec) : Prop :=
  (∀ s, p.voltage_input = some s → s ≠ "" → voltageFormatOk s = true)
    ∧ (∀ s, p.voltage_output = some s → s ≠ "" → voltageFormatOk s = true)
    ∧ (∀ s, p.current_rating = some s → s ≠ "" → currentFormatOk s = true)
    ∧ (∀ s, p.power_consumption = some s → s ≠ "" → powerFormatOk s = true)
    ∧ (∀ s, p.capacity = some s → s ≠ "" → capacityFormatOk s = true)

theorem powerFieldCheck_eq_nil {field : Option String} {ok : String → Bool}
    {err : String → ComponentError}
    (h : ∀ s, field = some s → s ≠ "" → ok s = true) :
    powerFieldCheck field ok err = [] := by
  cases field with
  | none => rfl
  | some s =>
    by_cases hs : s = ""
    · simp [powerFieldCheck, hs]
    · simp [powerFieldCheck, bne_iff_ne, hs, h s rfl hs]

/-- C4 example component with an unknown but non-empty component type. -/
def c4WidgetComponent : Component :=
  { name := "Widget", component_type := "widget", source_document := "doc.pdf" }

/-- C4 example component whose voltage input text fails the anchored unit
pattern and whose other fields are all valid. -/
def c4VoltsComponent : Component :=
  { name := "Motor", component_type := "motor", source_document := "doc.pdf",
    power := { voltage_input := some "12VOLTS" } }

/-- C4: `validate_component` returns `ok = true` iff its error list is
empty; when name, type and source document are non-empty and every
populated power field passes its anchored unit pattern there is no error
(so errors arise only from those four sources — in particular a non-empty
unknown type such as `widget` yields `ok = true` with no error); and a
component with `voltage_input = "12VOLTS"` and all other fields valid
yields `ok = false` with exactly the one voltage-format error. -/
theorem validate_component_ok_iff :
    (∀ c : Component, ((validate_component c).1 = true ↔ (validate_component c).2 = []))
      ∧ (∀ c : Component, c.name ≠ "" → c.component_type ≠ "" → c.source_document ≠ "" →
          powerFormatsOk c.power →
          (validate_component c).2 = [] ∧ (validate_component c).1 = true)
      ∧ validate_component c4WidgetComponent = (true, [])
      ∧ (validate_component c4VoltsComponent).1 = false
      ∧ (validate_component c4VoltsComponent).2 = [ComponentError.invalidVoltageInput "12VOLTS"] := by
  refine ⟨?_, ?_, by decide, by decide, by decide⟩
  · intro c
    simp [validate_component, List.isEmpty_iff]
  · intro c hn ht hs hp
    obtain ⟨h1, h2, h3, h4, h5⟩ := hp
    have herr : validatePowerSpec c.power = [] := by
      simp [validatePowerSpec, powerFieldCheck_eq_nil h1, powerFieldCheck_eq_nil h2,
        powerFieldCheck_eq_nil h3, powerFieldCheck_eq_nil h4, powerFieldCheck_eq_nil h5]
    have hbn : (c.name == "") = false := beq_eq_false_iff_ne.mpr hn
    have hbt : (c.component_type == "") = false := beq_eq_false_iff_ne.mpr ht
    have hbs : (c.source_document == "") = false := beq_eq_false_iff_ne.mpr hs
    simp [validate_component, hbn, hbt, hbs, herr]

/-- Witness for C4: the widget-typed example discharges the no-error
implication concretely. -/
theorem validate_component_ok_iff_witness :
    (validate_component c4WidgetComponent).2 = []
      ∧ (validate_component c4WidgetComponent).1 = true :=
  validate_component_ok_iff.2.1 c4WidgetComponent (by decide) (by decide) (by decide)
    (by refine ⟨?_, ?_, ?_, ?_, ?_⟩ <;> intro s h hs <;> simp [c4WidgetComponent] at h)

/-! Project-validator empty-project claim. -/

/-- C8 counterexample input: an empty project whose name contains the
domain keyword `drone`. -/
def c8DroneProject : Project := { name := "drone" }

/-- C8 (counterexample): on an empty project named `drone`, the warning
list has six entries (the no-components warning plus five essential-
component warnings), not exactly one, so the claim fails as stated. -/
theorem validate_project_empty_drone_counterexample :
    (validate_project c8DroneProject).2.length = 6
      ∧ (validate_project c8DroneProject).2 ≠ [ProjectWarning.noComponents]
      ∧ (validate_project c8DroneProject).1 = false := by
  refine ⟨by decide, by decide, by decide⟩

/-- C8 (amended: the exactly-one-warning statement is restricted to empty
projects whose lowercased name contains neither `drone` nor `quadcopter`,
since a domain-keyword name additionally triggers the essential-component
warnings): such a project yields `ok = false` with exactly the
no-components warning, and for every project `ok = true` iff the returned
warning list is empty. -/
theorem validate_project_empty_amended :
    (∀ p : Project, ((validate_project p).1 = true ↔ (validate_project p).2 = []))
      ∧ (∀ p : Project, p.components = [] →
          substrOf "drone" (toLowerS p.name) = false →
          substrOf "quadcopter" (toLowerS p.name) = false →
          validate_project p = (false, [ProjectWarning.noComponents])) := by
  constructor
  · intro p
    simp [validate_project, List.isEmpty_iff]
  · intro p hc hd hq
    simp [validate_project, hc, hd, hq]

/-- Witness for C8: the empty project named `x` yields exactly the
no-components warning. -/
theorem validate_project_empty_amended_witness :
    validate_project { name := "x" } = (false, [ProjectWarning.noComponents]) :=
  validate_project_empty_amended.2 { name := "x" } (by decide) (by decide) (by decide)

/-! Completeness-score claim. -/

/-- Number of populated items of the eight-item checklist actually used by
the source (interface item over the uart, i2c, spi, usb counts). -/
def completenessCount (c : Component) : Nat :=
  (if c.name != "" then 1 else 0) + (if c.component_type != "" then 1 else 0)
    + (if truthyOpt c.manufacturer then 1 else 0) + (if truthyOpt c.part_number then 1 else 0)
    + (if truthyOpt c.power.voltage_input then 1 else 0)
    + (if truthyOpt c.power.current_rating then 1 else 0)
    + (if interfaceAnyFilled c then 1 else 0)
    + (if c.specific_specs.isEmpty then 0 else 1)

/-- Interface item as worded by the claim: any of the SEVEN interface
counts nonzero.  This follows the claim's words, for comparison with the
source's four-count check. -/
def claimedInterfaceAny (c : Component) : Bool :=
  decide (0 < c.interfaces.uart_count) || decide (0 < c.interfaces.i2c_count)
    || decide (0 < c.interfaces.spi_count) || decide (0 < c.interfaces.can_count)
    || decide (0 < c.interfaces.usb_count) || decide (0 < c.interfaces.gpio_count)
    || decide (0 < c.interfaces.pwm_count)

/-- Checklist count as worded by the claim (seven-count interface item). -/
def claimedCount (c : Component) : Nat :=
  (if c.name != "" then 1 else 0) + (if c.component_type != "" then 1 else 0)
    + (if truthyOpt c.manufacturer then 1 else 0) + (if truthyOpt c.part_number then 1 else 0)
    + (if truthyOpt c.power.voltage_input then 1 else 0)
    + (if truthyOpt c.power.current_rating then 1 else 0)
    + (if claimedInterfaceAny c then 1 else 0)
    + (if c.specific_specs.isEmpty then 0 else 1)

/-- Completeness score as worded by the claim. -/
def claimedCompleteness (c : Component) : Rat := (claimedCount c : Rat) / 8

/-- C2 counterexample input: only name and type are populated, and the only
nonzero interface count is the CAN count, which the source ignores. -/
def c2CanOnlyComponent : Component :=
  { name := "a", component_type := "b", source_document := "d",
    interfaces := { can_count := 1 } }

/-- C2 (counterexample): for a component whose only nonzero interface count
is the CAN count, the source scores 2 items (1/4) while the claim's
eight-item checklist with a seven-count interface item scores 3 items
(3/8), so the claim fails as stated. -/
theorem check_completeness_seven_interface_counterexample :
    check_completeness c2CanOnlyComponent = 1/4
      ∧ claimedCompleteness c2CanOnlyComponent = 3/8
      ∧ check_completeness c2CanOnlyComponent ≠ claimedCompleteness c2CanOnlyComponent := by
  have h1 : check_completeness c2CanOnlyComponent = 1/4 := by
    have h : ((List.countP (fun b => b) (coreFields c2CanOnlyComponent)
        + if interfaceAnyFilled c2CanOnlyComponent then 1 else 0)
        + if c2CanOnlyComponent.specific_specs.isEmpty then 0 else 1 : Nat) = 2 := by decide
    simp only [check_completeness, h]
    norm_num [coreFields, c2CanOnlyComponent]
  have h2 : claimedCompleteness c2CanOnlyComponent = 3/8 := by
    have h : claimedCount c2CanOnlyComponent = 3 := by decide
    simp only [claimedCompleteness, h]
    norm_num
  refine ⟨h1, h2, by rw [h1, h2]; norm_num⟩

theorem eight_items_eq_eight (b1 b2 b3 b4 b5 b6 b7 b8 : Bool) :
    ((if b1 = true then (1:Nat) else 0) + (if b2 = true then 1 else 0)
        + (if b3 = true then 1 else 0) + (if b4 = true then 1 else 0)
        + (if b5 = true then 1 else 0) + (if b6 = true then 1 else 0)
        + (if b7 = true then 1 else 0) + (if b8 = true then 0 else 1) = 8)
      ↔ (b1 = true ∧ b2 = true ∧ b3 = true ∧ b4 = true ∧ b5 = true ∧ b6 = true
          ∧ b7 = true ∧ b8 = false) := by
  cases b1 <;> cases b2 <;> cases b3 <;> cases b4 <;> cases b5 <;> cases b6 <;>
    cases b7 <;> cases b8 <;> simp

/-- C2 (amended: the interface checklist item is populated iff at least one
of the FOUR counts uart, i2c, spi, usb is nonzero — the source does not
test the can, gpio and pwm counts): `check_completeness` returns `k / 8`
where `k` counts the populated items of the fixed eight-item checklist,
each item contributing one unit, so the result lies in `[0, 1]` and equals
1 exactly when all eight items are populated. -/
theorem check_completeness_amended (c : Component) :
    check_completeness c = (completenessCount c : Rat) / 8
      ∧ 0 ≤ check_completeness c ∧ check_completeness c ≤ 1
      ∧ (check_completeness c = 1 ↔
          (c.name ≠ "" ∧ c.component_type ≠ "" ∧ truthyOpt c.manufacturer = true
            ∧ truthyOpt c.part_number = true ∧ truthyOpt c.power.voltage_input = true
            ∧ truthyOpt c.power.current_rating = true ∧ interfaceAnyFilled c = true
            ∧ c.specific_specs ≠ [])) := by
  have hcount : ((List.countP (fun b => b) (coreFields c)
      + if interfaceAnyFilled c then 1 else 0)
      + if c.specific_specs.isEmpty then 0 else 1 : Nat) = completenessCount c := by
    simp only [coreFields, completenessCount, List.countP_cons, List.countP_nil]
    split_ifs <;> omega
  have hle8 : completenessCount c ≤ 8 := by
    unfold completenessCount
    split_ifs <;> omega
  have htot : (coreFields c).length + 1 + 1 = 8 := by simp [coreFields]
  have heq : check_completeness c = (completenessCount c : Rat) / 8 := by
    simp only [check_completeness, hcount, htot]
    norm_num
  refine ⟨heq, ?_, ?_, ?_⟩
  · rw [heq]
    positivity
  · rw [heq, div_le_one (by norm_num : (0:Rat) < 8)]
    exact_mod_cast hle8
  · rw [heq, div_eq_iff (by norm_num : (8:Rat) ≠ 0), one_mul]
    have hcast : ((completenessCount c : Rat) = 8) ↔ completenessCount c = 8 := by
      exact_mod_cast Iff.rfl
    rw [hcast]
    have hbool : completenessCount c = 8 ↔
        ((c.name != "") = true ∧ (c.component_type != "") = true
          ∧ truthyOpt c.manufacturer = true ∧ truthyOpt c.part_number = true
          ∧ truthyOpt c.power.voltage_input = true ∧ truthyOpt c.power.current_rating = true
          ∧ interfaceAnyFilled c = true ∧ c.specific_specs.isEmpty = false) := by
      unfold completenessCount
      exact eight_items_eq_eight _ _ _ _ _ _ _ _
    rw [hbool]
    have hnil : c.specific_specs.isEmpty = false ↔ c.specific_specs ≠ [] := by
      cases hq : c.specific_specs <;> simp [hq]
    rw [bne_iff_ne, bne_iff_ne, hnil]

/-! Contextual power-spec extraction claim. -/

/-- C3: `parse_power_specs` takes `voltage_output` from the contextual
match near the output-family keywords and, whenever either direction has a
contextual match, `voltage_input` from the contextual match near the
input-family keywords; on `"Input: 12V, Output: 5V"` it yields `12V` and
`5V`; and whenever neither direction yields a contextual match, the first
unscoped voltage match is assigned to `voltage_input` while
`voltage_output` is left unset. -/
theorem parse_power_specs_contextual (t : String) :
    (parse_power_specs t).voltage_output = extractContextualVoltage t ["output", "vout"]
      ∧ ((extractContextualVoltage t ["input", "supply", "vin"]).isSome = true
            ∨ (extractContextualVoltage t ["output", "vout"]).isSome = true →
          (parse_power_specs t).voltage_input
            = extractContextualVoltage t ["input", "supply", "vin"])
      ∧ (extractContextualVoltage t ["input", "supply", "vin"] = none →
          extractContextualVoltage t ["output", "vout"] = none →
          (parse_power_specs t).voltage_input = extractPattern "voltage" t
            ∧ (parse_power_specs t).voltage_output = none)
      ∧ (parse_power_specs "Input: 12V, Output: 5V").voltage_input = some "12V"
      ∧ (parse_power_specs "Input: 12V, Output: 5V").voltage_output = some "5V" := by
  refine ⟨rfl, ?_, ?_, by decide, by decide⟩
  · intro h
    cases hvin : extractContextualVoltage t ["input", "supply", "vin"] with
    | some v => simp [parse_power_specs, hvin]
    | none =>
      cases hvout : extractContextualVoltage t ["output", "vout"] with
      | some w => simp [parse_power_specs, hvin, hvout]
      | none =>
        rw [hvin, hvout] at h
        simp at h
  · intro h1 h2
    constructor
    · simp [parse_power_specs, h1, h2]
    · simp [parse_power_specs, h2]

/-- Witness for C3: on the context-free text `"12V"` neither direction
matches contextually, so the unscoped first match goes to `voltage_input`
and `voltage_output` stays unset. -/
theorem parse_power_specs_contextual_witness :
    (parse_power_specs "12V").voltage_input = extractPattern "voltage" "12V"
      ∧ (parse_power_specs "12V").voltage_output = none :=
  (parse_power_specs_contextual "12V").2.2.1 (by decide) (by decide)

/-! Component-classifier claim. -/

theorem pickMax_decomp :
    ∀ (xs : List (String × Nat)) (best : String × Nat),
      ∃ l1 l2, best :: xs = l1 ++ pickMax best xs :: l2
        ∧ (∀ q ∈ l1, q.2 < (pickMax best xs).2)
        ∧ (∀ q ∈ l2, q.2 ≤ (pickMax best xs).2) := by
  intro xs
  induction xs with
  | nil =>
    intro best
    exact ⟨[], [], rfl, by simp, by simp⟩
  | cons x xs ih =>
    intro best
    by_cases h : best.2 < x.2
    · have e : pickMax best (x :: xs) = pickMax x xs := by simp [pickMax, h]
      obtain ⟨l1, l2, hdec, hl1, hl2⟩ := ih x
      have hlt : best.2 < (pickMax x xs).2 := by
        rcases l1 with _ | ⟨y, t⟩
        · rw [List.nil_append] at hdec
          injection hdec with h1 h2
          rw [← h1]
          exact h
        · rw [List.cons_append] at hdec
          injection hdec with h1 h2
          have hx : x.2 < (pickMax x xs).2 := hl1 x (h1 ▸ List.mem_cons_self y t)
          exact lt_trans h hx
      refine ⟨best :: l1, l2, ?_, ?_, ?_⟩
      · rw [e, List.cons_append]
        exact congrArg (List.cons best) hdec
      · intro q hq
        rw [e]
        rcases List.mem_cons.mp hq with rfl | hq
        · exact hlt
        · exact hl1 q hq
      · intro q hq
        rw [e]
        exact hl2 q hq
    · have e : pickMax best (x :: xs) = pickMax best xs := by simp [pickMax, h]
      obtain ⟨l1, l2, hdec, hl1, hl2⟩ := ih best
      rcases l1 with _ | ⟨y, t⟩
      · rw [List.nil_append] at hdec
        injection hdec with h1 h2
        refine ⟨[], x :: xs, ?_, by simp, ?_⟩
        · rw [e, List.nil_append, ← h1]
        · intro q hq
          rw [e]
          rcases List.mem_cons.mp hq with rfl | hq
          · rw [← h1]
            omega
          · rw [h2] at hq
            exact hl2 q hq
      · rw [List.cons_append] at hdec
        injection hdec with h1 h2
        refine ⟨best :: x :: t, l2, ?_, ?_, ?_⟩
        · rw [e, List.cons_append, List.cons_append]
          exact congrArg (List.cons best) (congrArg (List.cons x) h2)
        · intro q hq
          rw [e]
          have hbest : best.2 < (pickMax best xs).2 := by
            have hy := hl1 y (List.mem_cons_self y t)
            have hby : best.2 = y.2 := by rw [h1]
            omega
          rcases List.mem_cons.mp hq with rfl | hq
          · exact hbest
          · rcases List.mem_cons.mp hq with rfl | hq
            · omega
            · exact hl1 q (List.mem_cons_of_mem y hq)
        · intro q hq
          rw [e]
          exact hl2 q hq

theorem filter_decomp {α : Type} (q : α → Bool) :
    ∀ (l l1 l2 : List α) (x : α), l.filter q = l1 ++ x :: l2 →
      ∃ l1' l2', l = l1' ++ x :: l2'
        ∧ (∀ a ∈ l1', q a = true → a ∈ l1)
        ∧ (∀ a ∈ l2', q a = true → a ∈ l2)
        ∧ q x = true := by
  intro l
  induction l with
  | nil =>
    intro l1 l2 x h
    simp only [List.filter_nil] at h
    exact absurd h.symm (List.append_ne_nil_of_right_ne_nil l1 (by simp))
  | cons a as ih =>
    intro l1 l2 x h
    by_cases hqa : q a = true
    · rw [List.filter_cons, if_pos hqa] at h
      rcases l1 with _ | ⟨b, t⟩
      · rw [List.nil_append] at h
        injection h with h1 h2
        subst h1
        refine ⟨[], as, rfl, by simp, ?_, hqa⟩
        intro a' ha' hqa'
        rw [← h2]
        exact List.mem_filter.mpr ⟨ha', hqa'⟩
      · rw [List.cons_append] at h
        injection h with h1 h2
        subst h1
        obtain ⟨l1', l2', hdec, hp1, hp2, hx⟩ := ih t l2 x h2
        refine ⟨a :: l1', l2', by rw [hdec, List.cons_append], ?_, hp2, hx⟩
        intro a' ha' hq'
        rcases List.mem_cons.mp ha' with rfl | ha'
        · exact List.mem_cons_self a' t
        · exact List.mem_cons_of_mem _ (hp1 a' ha' hq')
    · rw [List.filter_cons, if_neg hqa] at h
      obtain ⟨l1', l2', hdec, hp1, hp2, hx⟩ := ih l1 l2 x h
      refine ⟨a :: l1', l2', by rw [hdec, List.cons_append], ?_, hp2, hx⟩
      intro a' ha' hq'
      rcases List.mem_cons.mp ha' with rfl | ha'
      · exact absurd hq' hqa
      · exact hp1 a' ha' hq'

/-- C5: `identify_component_type` returns `none` exactly when every
category scores zero, and otherwise returns the category with the highest
nonzero keyword-hit count, ties broken in favor of the category registered
earliest in the table: the result splits the score table into strictly
smaller scores before it and no larger scores after it. -/
theorem identify_component_type_argmax (t : String) :
    (identify_component_type t = none ↔ ∀ q ∈ typeScores t, q.2 = 0)
      ∧ (∀ cat, identify_component_type t = some cat →
          ∃ l1 n l2, typeScores t = l1 ++ (cat, n) :: l2 ∧ 0 < n
            ∧ (∀ q ∈ l1, q.2 < n) ∧ (∀ q ∈ l2, q.2 ≤ n)) := by
  constructor
  · cases hf : (typeScores t).filter (fun p => decide (0 < p.2)) with
    | nil =>
      simp only [identify_component_type, hf]
      constructor
      · intro _ p hp
        have hall := List.filter_eq_nil_iff.mp hf
        have := hall p hp
        simpa using this
      · intro _
        trivial
    | cons b rest =>
      simp only [identify_component_type, hf]
      constructor
      · intro hsome
        exact absurd hsome (by simp)
      · intro hall
        have hb : b ∈ (typeScores t).filter (fun p => decide (0 < p.2)) := by
          rw [hf]
          exact List.mem_cons_self b rest
        have hmem := List.mem_filter.mp hb
        have hpos : 0 < b.2 := by simpa using hmem.2
        have hzero := hall b hmem.1
        omega
  · intro cat hcat
    cases hf : (typeScores t).filter (fun p => decide (0 < p.2)) with
    | nil =>
      have hid : identify_component_type t = none := by
        unfold identify_component_type
        rw [hf]
      rw [hid] at hcat
      exact absurd hcat (by simp)
    | cons b rest =>
      have hid : identify_component_type t = some (pickMax b rest).1 := by
        unfold identify_component_type
        rw [hf]
      rw [hid] at hcat
      have hc : (pickMax b rest).1 = cat := by simpa using hcat
      obtain ⟨l1, l2, hdec, hl1, hl2⟩ := pickMax_decomp rest b
      have hfil : (typeScores t).filter (fun p => decide (0 < p.2))
          = l1 ++ pickMax b rest :: l2 := by rw [hf, hdec]
      obtain ⟨l1', l2', hdec', hp1, hp2, hqr⟩ := filter_decomp _ _ _ _ _ hfil
      have hrpos : 0 < (pickMax b rest).2 := by simpa using hqr
      refine ⟨l1', (pickMax b rest).2, l2', ?_, hrpos, ?_, ?_⟩
      · have hpair : (cat, (pickMax b rest).2) = pickMax b rest := by
          rw [← hc]
        rw [hpair]
        exact hdec'
      · intro p hp
        by_cases hp2' : 0 < p.2
        · exact hl1 p (hp1 p hp (by simpa using hp2'))
        · omega
      · intro p hp
        by_cases hp2' : 0 < p.2
        · exact hl2 p (hp2 p hp (by simpa using hp2'))
        · omega

/-- Witness for C5: on `"brushless motor"` the classifier returns `motor`,
and the score table splits around it as the claim states. -/
theorem identify_component_type_argmax_witness :
    ∃ l1 n l2, typeScores "brushless motor" = l1 ++ ("motor", n) :: l2 ∧ 0 < n
      ∧ (∀ q ∈ l1, q.2 < n) ∧ (∀ q ∈ l2, q.2 ≤ n) :=
  (identify_component_type_argmax "brushless motor").2 "motor" (by decide)

/-! Power-compatibility claim. -/

theorem length_foldl_insertDistinct (vs : List Rat) :
    ∀ acc : List Rat, (vs.foldl insertDistinct acc).length ≤ acc.length + vs.length := by
  induction vs with
  | nil => intro acc; simp
  | cons v vs ih =>
    intro acc
    simp only [List.foldl_cons, List.length_cons]
    have h := ih (insertDistinct acc v)
    have hlen : (insertDistinct acc v).length ≤ acc.length + 1 := by
      unfold insertDistinct
      split <;> simp
    omega

theorem length_distinctVals_le (vs : List Rat) : (distinctVals vs).length ≤ vs.length := by
  have := length_foldl_insertDistinct vs []
  simpa [distinctVals] using this

/-- C6: `check_power_compatibility` produces the voltage-mismatch issue iff
the set of distinct leading numeric values of the populated voltage inputs
has more than three members, produces the high-current issue iff a
battery-typed component exists and the budget's total current exceeds 50,
and produces nothing else. -/
theorem check_power_compatibility_issues (p : Project) :
    check_power_compatibility p =
        (if 3 < (distinctVals ((voltagesOf p).map (fun v => v.2))).length then
          [PowerIssue.voltageMismatch (distinctVals ((voltagesOf p).map (fun v => v.2)))]
         else [])
        ++ (if (∃ c ∈ p.components, c.component_type = "battery")
              ∧ 50 < (List.lookup "total_current_a" p.total_power_budget).getD 0 then
          [PowerIssue.highCurrent ((List.lookup "total_current_a" p.total_power_budget).getD 0)]
         else [])
      ∧ ((∃ vs, PowerIssue.voltageMismatch vs ∈ check_power_compatibility p)
          ↔ 3 < (distinctVals ((voltagesOf p).map (fun v => v.2))).length)
      ∧ ((∃ a, PowerIssue.highCurrent a ∈ check_power_compatibility p)
          ↔ ((∃ c ∈ p.components, c.component_type = "battery")
              ∧ 50 < (List.lookup "total_current_a" p.total_power_budget).getD 0)) := by
  have hlen := length_distinctVals_le ((voltagesOf p).map (fun v => v.2))
  rw [List.length_map] at hlen
  have hmain : check_power_compatibility p =
      (if 3 < (distinctVals ((voltagesOf p).map (fun v => v.2))).length then
        [PowerIssue.voltageMismatch (distinctVals ((voltagesOf p).map (fun v => v.2)))]
       else [])
      ++ (if (∃ c ∈ p.components, c.component_type = "battery")
            ∧ 50 < (List.lookup "total_current_a" p.total_power_budget).getD 0 then
        [PowerIssue.highCurrent ((List.lookup "total_current_a" p.total_power_budget).getD 0)]
       else []) := by
    have hrfl : check_power_compatibility p =
        (if 1 < (voltagesOf p).length then
          (if 3 < (distinctVals ((voltagesOf p).map (fun v => v.2))).length then
            [PowerIssue.voltageMismatch (distinctVals ((voltagesOf p).map (fun v => v.2)))]
           else [])
         else [])
        ++ (if (p.components.filter (fun c => c.component_type == "battery")).isEmpty = true then
            ([] : List PowerIssue)
          else (if 50 < (List.lookup "total_current_a" p.total_power_budget).getD 0 then
            [PowerIssue.highCurrent ((List.lookup "total_current_a" p.total_power_budget).getD 0)]
           else [])) := rfl
    rw [hrfl]
    have hfirst : (if 1 < (voltagesOf p).length then
          (if 3 < (distinctVals ((voltagesOf p).map (fun v => v.2))).length then
            [PowerIssue.voltageMismatch (distinctVals ((voltagesOf p).map (fun v => v.2)))]
           else [])
         else []) =
        (if 3 < (distinctVals ((voltagesOf p).map (fun v => v.2))).length then
          [PowerIssue.voltageMismatch (distinctVals ((voltagesOf p).map (fun v => v.2)))]
         else []) := by
      by_cases h1 : 1 < (voltagesOf p).length
      · rw [if_pos h1]
      · have h3 : ¬ 3 < (distinctVals ((voltagesOf p).map (fun v => v.2))).length := by omega
        rw [if_neg h1, if_neg h3]
    have hsecond :
        (if (p.components.filter (fun c => c.component_type == "battery")).isEmpty = true then
            ([] : List PowerIssue)
          else (if 50 < (List.lookup "total_current_a" p.total_power_budget).getD 0 then
            [PowerIssue.highCurrent ((List.lookup "total_current_a" p.total_power_budget).getD 0)]
           else []))
        = (if (∃ c ∈ p.components, c.component_type = "battery")
              ∧ 50 < (List.lookup "total_current_a" p.total_power_budget).getD 0 then
            [PowerIssue.highCurrent ((List.lookup "total_current_a" p.total_power_budget).getD 0)]
           else []) := by
      cases hfil : p.components.filter (fun c => c.component_type == "battery") with
      | nil =>
        have hnb : ¬ (∃ c ∈ p.components, c.component_type = "battery") := by
          have hall := List.filter_eq_nil_iff.mp hfil
          rintro ⟨c, hc, hty⟩
          have := hall c hc
          simp [hty] at this
        rw [if_pos (by simp : (([] : List Component)).isEmpty = true)]
        rw [if_neg (by rintro ⟨hb', _⟩; exact hnb hb')]
      | cons c cs =>
        have hcmem : c ∈ p.components.filter (fun c => c.component_type == "battery") := by
          rw [hfil]
          exact List.mem_cons_self c cs
        have hcb := List.mem_filter.mp hcmem
        have hb : ∃ c ∈ p.components, c.component_type = "battery" :=
          ⟨c, hcb.1, by simpa using hcb.2⟩
        rw [if_neg (by simp : ¬ ((c :: cs)).isEmpty = true)]
        by_cases ht : 50 < (List.lookup "total_current_a" p.total_power_budget).getD 0
        · rw [if_pos ht, if_pos ⟨hb, ht⟩]
        · rw [if_neg ht, if_neg (by rintro ⟨_, ht'⟩; exact ht ht')]
    rw [hfirst, hsecond]
  refine ⟨hmain, ?_, ?_⟩
  · rw [hmain]
    by_cases h3 : 3 < (distinctVals ((voltagesOf p).map (fun v => v.2))).length <;>
      by_cases h4 : (∃ c ∈ p.components, c.component_type = "battery")
          ∧ 50 < (List.lookup "total_current_a" p.total_power_budget).getD 0 <;>
      simp [h3, h4]
  · rw [hmain]
    by_cases h3 : 3 < (distinctVals ((voltagesOf p).map (fun v => v.2))).length <;>
      by_cases h4 : (∃ c ∈ p.components, c.component_type = "battery")
          ∧ 50 < (List.lookup "total_current_a" p.total_power_budget).getD 0 <;>
      simp [h3, h4]

/-! Interface-availability claim. -/

/-- C7: when a project has a processor or controller, the first one in
insertion order is the controller, and for each protocol exactly one
shortfall issue is produced iff the number of sensor/radio/camera
components whose `specific_specs` textual representation contains the
protocol name exceeds the controller's corresponding interface count. -/
theorem check_interface_availability_shortfalls (p : Project) (main : Component)
    (rest : List Component) (h : processorsOf p = main :: rest) :
    check_interface_availability p =
        (if main.interfaces.uart_count < requiredCount "uart" p then
          [InterfaceIssue.insufficientUart (requiredCount "uart" p) main.interfaces.uart_count]
         else [])
        ++ (if main.interfaces.i2c_count < requiredCount "i2c" p then
          [InterfaceIssue.insufficientI2c (requiredCount "i2c" p) main.interfaces.i2c_count]
         else [])
        ++ (if main.interfaces.spi_count < requiredCount "spi" p then
          [InterfaceIssue.insufficientSpi (requiredCount "spi" p) main.interfaces.spi_count]
         else [])
      ∧ (List.count
            (InterfaceIssue.insufficientUart (requiredCount "uart" p) main.interfaces.uart_count)
            (check_interface_availability p) = 1
          ↔ main.interfaces.uart_count < requiredCount "uart" p)
      ∧ (List.count
            (InterfaceIssue.insufficientI2c (requiredCount "i2c" p) main.interfaces.i2c_count)
            (check_interface_availability p) = 1
          ↔ main.interfaces.i2c_count < requiredCount "i2c" p)
      ∧ (List.count
            (InterfaceIssue.insufficientSpi (requiredCount "spi" p) main.interfaces.spi_count)
            (check_interface_availability p) = 1
          ↔ main.interfaces.spi_count < requiredCount "spi" p) := by
  have hmain : check_interface_availability p =
      (if main.interfaces.uart_count < requiredCount "uart" p then
        [InterfaceIssue.insufficientUart (requiredCount "uart" p) main.interfaces.uart_count]
       else [])
      ++ (if main.interfaces.i2c_count < requiredCount "i2c" p then
        [InterfaceIssue.insufficientI2c (requiredCount "i2c" p) main.interfaces.i2c_count]
       else [])
      ++ (if main.interfaces.spi_count < requiredCount "spi" p then
        [InterfaceIssue.insufficientSpi (requiredCount "spi" p) main.interfaces.spi_count]
       else []) := by
    unfold check_interface_availability
    rw [h]
  refine ⟨hmain, ?_, ?_, ?_⟩ <;> rw [hmain] <;>
    by_cases h1 : main.interfaces.uart_count < requiredCount "uart" p <;>
    by_cases h2 : main.interfaces.i2c_count < requiredCount "i2c" p <;>
    by_cases h3 : main.interfaces.spi_count < requiredCount "spi" p <;>
    simp [h1, h2, h3, List.count_append, List.count_cons, List.count_nil, beq_iff_eq]

/-- C7 witness input: a processor with no declared interface ports. -/
def c7Proc : Component :=
  { name := "P", component_type := "processor", source_document := "d" }

/-- C7 witness input: a sensor whose specific specs mention the I2C bus. -/
def c7Sensor : Component :=
  { name := "S", component_type := "sensor", source_document := "d",
    specific_specs := [("bus", "I2C")] }

/-- C7 witness input: a project with the processor and the I2C sensor. -/
def c7Project : Project := { name := "p", components := [c7Proc, c7Sensor] }

/-- Witness for C7: the sensor requires one I2C port, the processor has
none, so exactly the I2C shortfall issue is reported. -/
theorem check_interface_availability_shortfalls_witness :
    check_interface_availability c7Project = [InterfaceIssue.insufficientI2c 1 0] := by
  rw [(check_interface_availability_shortfalls c7Project c7Proc [] (by decide)).1]
  decide

end Docget










